import Mathlib

/-!
Verification of the sidecar-aware media normalization pipeline
(`merged_script.py`): a shallow embedding of its path manipulation
(Python `pathlib` suffix semantics), sidecar resolution, exiftool
argument construction, per-file processing and the directory walk,
together with theorems about the behaviour of each component.

External processes (ImageMagick, ffmpeg, exiftool), the file system and
JSON parsing are modelled by an explicit environment of oracles; each
external invocation is recorded in a trace so that statements such as
"no metadata application is attempted" are expressible.
-/

namespace MergedScript

/-! ## Python `pathlib` path model

A path is a plain string.  The final component (`Path.name`) is the part
after the last `/`; the suffix (`Path.suffix`) is the part of the name
from its last dot onwards, provided that dot is neither the first nor the
last character of the name.  We work on the reversed character list of
the name, which makes "last dot" reasoning structural. -/

/-- Reversed characters of the final path component (after the last slash). -/
def nameRev (p : String) : List Char :=
  p.data.reverse.takeWhile (fun c => c != '/')

/-- Reversed characters of the directory part (up to and including the last slash). -/
def dirRev (p : String) : List Char :=
  p.data.reverse.dropWhile (fun c => c != '/')

/-- The final path component, as `pathlib`'s `Path.name`. -/
def pathName (p : String) : String :=
  ⟨(nameRev p).reverse⟩

/-- Python `str.lower()`, character by character. -/
def pyLower (s : String) : String :=
  ⟨s.data.map Char.toLower⟩

/-- Split a reversed name into (reversed suffix including the dot, reversed stem),
following `pathlib`: the suffix is `name[i:]` for `i` the index of the last dot,
and exists only when `0 < i < len(name) - 1`. -/
def revSuffixSplit (rev : List Char) : Option (List Char × List Char) :=
  if rev.dropWhile (fun c => c != '.') = [] ∨
     rev.takeWhile (fun c => c != '.') = [] ∨
     (rev.dropWhile (fun c => c != '.')).tail = [] then none
  else
    some (rev.takeWhile (fun c => c != '.') ++
            [(rev.dropWhile (fun c => c != '.')).headD ' '],
          (rev.dropWhile (fun c => c != '.')).tail)

/-- `pathlib` `Path.suffix`: the extension of the final component, or `""`. -/
def pySuffix (p : String) : String :=
  match revSuffixSplit (nameRev p) with
  | none => ""
  | some st => ⟨st.1.reverse⟩

/-- `pathlib` `Path.with_suffix`: drop the current suffix of the final
component (if any) and append `suf`.  Modelled totally; the Python
function additionally raises on an empty name or an invalid `suf`,
situations that do not arise for paths of walked files. -/
def pyWithSuffix (p : String) (suf : String) : String :=
  let stemRev :=
    match revSuffixSplit (nameRev p) with
    | none => nameRev p
    | some st => st.2
  ⟨(dirRev p).reverse ++ stemRev.reverse ++ suf.data⟩

/-! ### Path lemmas -/

theorem takeWhile_append_all {α : Type} {q : α → Bool} {l₁ l₂ : List α}
    (h : ∀ a ∈ l₁, q a = true) :
    (l₁ ++ l₂).takeWhile q = l₁ ++ l₂.takeWhile q := by
  induction l₁ with
  | nil => simp
  | cons a t ih =>
    have ha : q a = true := h a (List.mem_cons_self a t)
    simp only [List.cons_append, List.takeWhile_cons, ha, if_true, ih
      (fun b hb => h b (List.mem_cons_of_mem a hb))]

theorem dropWhile_append_all {α : Type} {q : α → Bool} {l₁ l₂ : List α}
    (h : ∀ a ∈ l₁, q a = true) :
    (l₁ ++ l₂).dropWhile q = l₂.dropWhile q := by
  induction l₁ with
  | nil => simp
  | cons a t ih =>
    have ha : q a = true := h a (List.mem_cons_self a t)
    simp only [List.cons_append, List.dropWhile_cons, ha, if_true, ih
      (fun b hb => h b (List.mem_cons_of_mem a hb))]

theorem takeWhile_dropWhile_self {α : Type} (q : α → Bool) (l : List α) :
    (l.dropWhile q).takeWhile q = [] := by
  induction l with
  | nil => rfl
  | cons a t ih =>
    by_cases h : q a = true
    · simpa [List.dropWhile_cons, h] using ih
    · simp only [Bool.not_eq_true] at h
      simp [List.dropWhile_cons, List.takeWhile_cons, h]

theorem data_decomp (p : String) :
    p.data = (dirRev p).reverse ++ (nameRev p).reverse := by
  have h : nameRev p ++ dirRev p = p.data.reverse := by
    unfold nameRev dirRev
    exact List.takeWhile_append_dropWhile _ _
  have h2 : (nameRev p ++ dirRev p).reverse = p.data := by
    rw [h, List.reverse_reverse]
  rw [← h2, List.reverse_append]

theorem revSuffixSplit_eq_some {rev s t : List Char}
    (h : revSuffixSplit rev = some (s, t)) :
    rev = s ++ t ∧ s ≠ [] ∧ t ≠ [] := by
  unfold revSuffixSplit at h
  split at h
  · exact absurd h (by simp)
  next hc =>
    push_neg at hc
    obtain ⟨hrest, hpre, htail⟩ := hc
    obtain ⟨c, rest, hd⟩ :
        ∃ c rest, rev.dropWhile (fun c => c != '.') = c :: rest := by
      rcases hx : rev.dropWhile (fun c => c != '.') with _ | ⟨c, rest⟩
      · exact absurd hx hrest
      · exact ⟨c, rest, rfl⟩
    rw [hd] at h htail
    simp only [List.headD_cons, List.tail_cons] at h htail
    injection h with h'
    have hs : rev.takeWhile (fun c => c != '.') ++ [c] = s :=
      congrArg Prod.fst h'
    have ht : rest = t := congrArg Prod.snd h'
    have hdecomp : rev.takeWhile (fun c => c != '.') ++ (c :: rest) = rev := by
      rw [← hd]
      exact List.takeWhile_append_dropWhile _ _
    refine ⟨?_, ?_, ?_⟩
    · rw [← hs, ← ht, List.append_assoc, List.singleton_append]
      exact hdecomp.symm
    · rw [← hs]; simp
    · rw [← ht]; exact htail

theorem pathName_eq_empty_iff (p : String) :
    pathName p = "" ↔ nameRev p = [] := by
  unfold pathName
  constructor
  · intro h
    have hd := congrArg String.data h
    simpa using hd
  · intro h
    rw [h]
    rfl

theorem pathName_ne_iff (p : String) : pathName p ≠ "" ↔ nameRev p ≠ [] :=
  not_congr (pathName_eq_empty_iff p)

/-- Appending `.json` after the existing suffix, the way
`find_corresponding_json` builds its first candidate, simply appends
`.json` to the whole path. -/
theorem pyWithSuffix_suffix_append_json (p : String) :
    pyWithSuffix p (pySuffix p ++ ".json") = p ++ ".json" := by
  unfold pyWithSuffix pySuffix
  rcases hs : revSuffixSplit (nameRev p) with _ | ⟨s, t⟩
  · simp only [hs]
    apply String.ext
    simp [data_decomp p, String.data_append]
  · simp only [hs]
    obtain ⟨hrev, -, -⟩ := revSuffixSplit_eq_some hs
    apply String.ext
    simp only [String.data_append]
    rw [data_decomp p, hrev]
    simp [List.reverse_append, List.append_assoc]

theorem nameRev_no_slash (p : String) :
    ∀ c ∈ nameRev p, (c != '/') = true := by
  intro c hc
  unfold nameRev at hc
  exact List.mem_takeWhile_imp (p := fun c => c != '/') hc

theorem dirRev_takeWhile (p : String) :
    (dirRev p).takeWhile (fun c => c != '/') = [] :=
  takeWhile_dropWhile_self (fun c => c != '/') p.data.reverse

/-- Core computation behind the suffix of a `with_suffix` result: a path
whose final component is `stem ++ "." ++ ds` (with `ds` dot- and
slash-free and both parts nonempty) has suffix `"." ++ ds`. -/
theorem pySuffix_mk_core (dRev stemRev ds : List Char)
    (hstem : stemRev ≠ []) (hds : ds ≠ [])
    (hdot : ∀ c ∈ ds, (c != '.') = true)
    (hsl : ∀ c ∈ ds, (c != '/') = true)
    (hstemsl : ∀ c ∈ stemRev, (c != '/') = true)
    (hdir : dRev.takeWhile (fun c => c != '/') = []) :
    pySuffix ⟨dRev.reverse ++ stemRev.reverse ++ ('.' :: ds)⟩ = ⟨'.' :: ds⟩ := by
  have hall : ∀ c ∈ ds.reverse ++ '.' :: stemRev, (c != '/') = true := by
    intro c hc
    rcases List.mem_append.mp hc with h | h
    · exact hsl c (List.mem_reverse.mp h)
    · rcases List.mem_cons.mp h with h | h
      · subst h; decide
      · exact hstemsl c h
  have halldot : ∀ c ∈ ds.reverse, (c != '.') = true :=
    fun c hc => hdot c (List.mem_reverse.mp hc)
  have hrev : (dRev.reverse ++ stemRev.reverse ++ ('.' :: ds)).reverse
      = (ds.reverse ++ '.' :: stemRev) ++ dRev := by
    simp [List.reverse_append, List.append_assoc]
  have hname : nameRev ⟨dRev.reverse ++ stemRev.reverse ++ ('.' :: ds)⟩ =
      ds.reverse ++ '.' :: stemRev := by
    unfold nameRev
    show ((dRev.reverse ++ stemRev.reverse ++ ('.' :: ds)).reverse).takeWhile
        (fun c => c != '/') = _
    rw [hrev, takeWhile_append_all hall, hdir, List.append_nil]
  have hdrop : (ds.reverse ++ '.' :: stemRev).dropWhile (fun c => c != '.') =
      '.' :: stemRev := by
    rw [dropWhile_append_all halldot]
    simp [List.dropWhile_cons]
  have htake : (ds.reverse ++ '.' :: stemRev).takeWhile (fun c => c != '.') =
      ds.reverse := by
    rw [takeWhile_append_all halldot]
    simp [List.takeWhile_cons]
  have hsplit : revSuffixSplit (ds.reverse ++ '.' :: stemRev) =
      some (ds.reverse ++ ['.'], stemRev) := by
    have hcond : ¬('.' :: stemRev = [] ∨ ds.reverse = [] ∨
        ('.' :: stemRev).tail = []) := by
      simp only [List.tail_cons]
      push_neg
      exact ⟨List.cons_ne_nil _ _, by simpa using hds, hstem⟩
    unfold revSuffixSplit
    rw [hdrop, htake, if_neg hcond]
    simp
  unfold pySuffix
  rw [hname, hsplit]
  simp [List.reverse_append]

/-- The suffix of a `with_suffix` result is the new suffix, for any path
with a nonempty final component and a well-formed new suffix. -/
theorem pySuffix_pyWithSuffix (p : String) (ds : List Char)
    (hname : nameRev p ≠ [])
    (hds : ds ≠ [])
    (hdot : ∀ c ∈ ds, (c != '.') = true)
    (hsl : ∀ c ∈ ds, (c != '/') = true) :
    pySuffix (pyWithSuffix p ⟨'.' :: ds⟩) = ⟨'.' :: ds⟩ := by
  unfold pyWithSuffix
  rcases hs : revSuffixSplit (nameRev p) with _ | ⟨s, t⟩
  · simp only [hs]
    exact pySuffix_mk_core (dirRev p) (nameRev p) ds hname hds hdot hsl
      (nameRev_no_slash p) (dirRev_takeWhile p)
  · simp only [hs]
    obtain ⟨hrev, hsne, htne⟩ := revSuffixSplit_eq_some hs
    refine pySuffix_mk_core (dirRev p) t ds htne hds hdot hsl ?_ (dirRev_takeWhile p)
    intro c hc
    refine nameRev_no_slash p c ?_
    rw [hrev]
    exact List.mem_append_right _ hc

/-! ## Sidecar metadata model

A sidecar's JSON value, restricted to the keys the script reads.  The
sub-bags (`photoTakenTime`, `creationTime`, `geoData`, `geoDataExif`) are
modelled as typed records; timestamps are the JSON strings Takeout
writes; coordinates are rationals (exact stand-ins for the floats).
`extraKeys` records whether a geo dict carries entries beyond the two
coordinates, which matters only for Python truthiness of the dict. -/

structure TimeVal where
  timestamp : Option String
deriving DecidableEq

structure GeoBag where
  latitude : Option ℚ
  longitude : Option ℚ
  extraKeys : Bool
deriving DecidableEq

structure Metadata where
  photoTakenTime : Option TimeVal
  creationTime : Option TimeVal
  geoData : Option GeoBag
  geoDataExif : Option GeoBag
  description : Option String
deriving DecidableEq

def emptyMetadata : Metadata := ⟨none, none, none, none, none⟩

/-- A parsed JSON document root, as far as `process_file` distinguishes
shapes: an object (projected to the keys of interest), an array, or a
scalar. -/
inductive JsonRoot where
  | obj (m : Metadata)
  | arr (elems : List JsonRoot)
  | str (s : String)
  | num (q : ℚ)
  | boolean (b : Bool)
  | null

/-- A Python exception raised by the script's library calls.
`valueError` is raised by `int()` and by `utcfromtimestamp` for years
outside `datetime`'s range, and is caught where the source catches it;
the others escape the script uncaught. -/
inductive PyErr where
  | fileNotFound
  | attributeError
  | valueError
  | overflowError
deriving DecidableEq

/-! ## Timestamp parsing and UTC formatting -/

/-- Python `int(s)` on a decimal string: optional surrounding whitespace,
optional sign, then at least one ASCII digit (digit-group underscores are
not modelled). `none` models the `ValueError` raised otherwise. -/
def pyInt (s : String) : Option Int :=
  let core := ((s.data.dropWhile Char.isWhitespace).reverse.dropWhile
    Char.isWhitespace).reverse
  let digitsVal : List Char → Option Nat := fun ds =>
    if ds ≠ [] ∧ ds.all Char.isDigit then
      some (ds.foldl (fun a c => a * 10 + (c.toNat - 48)) 0)
    else none
  match core with
  | '+' :: ds => (digitsVal ds).map (fun n => (n : Int))
  | '-' :: ds => (digitsVal ds).map (fun n => -(n : Int))
  | ds => (digitsVal ds).map (fun n => (n : Int))

/-- Civil date from days since 1970-01-01 (proleptic Gregorian), the
standard era-based algorithm; models what
`datetime.datetime.utcfromtimestamp` exposes via `%Y`/`%m`/`%d`. -/
def civilFromDays (z0 : Int) : Int × Nat × Nat :=
  let z := z0 + 719468
  let era : Int := z.fdiv 146097
  let doe : Nat := (z - era * 146097).toNat
  let yoe : Nat := (doe - doe / 1460 + doe / 36524 - doe / 146096) / 365
  let doy : Nat := doe - (365 * yoe + yoe / 4 - yoe / 100)
  let mp : Nat := (5 * doy + 2) / 153
  let d : Nat := doy - (153 * mp + 2) / 5 + 1
  let m : Nat := if mp < 10 then mp + 3 else mp - 9
  ((yoe : Int) + era * 400 + (if m ≤ 2 then 1 else 0), m, d)

def pad2 (n : Nat) : String :=
  if n < 10 then "0" ++ toString n else toString n

def pad4 (y : Int) : String :=
  if y < 0 then "-" ++ toString (-y)
  else if y < 10 then "000" ++ toString y
  else if y < 100 then "00" ++ toString y
  else if y < 1000 then "0" ++ toString y
  else toString y

/-- The `%Y:%m:%d %H:%M:%S` rendering of an epoch value whose conversion
succeeded: a UTC civil time with no timezone offset (used by
`utcDateString` below, which models the conversion's error modes). -/
def formatUtc (t : Int) : String :=
  let days := t.fdiv 86400
  let secs : Nat := (t - days * 86400).toNat
  let c := civilFromDays days
  pad4 c.1 ++ ":" ++ pad2 c.2.1 ++ ":" ++ pad2 c.2.2 ++ " " ++
    pad2 (secs / 3600) ++ ":" ++ pad2 (secs % 3600 / 60) ++ ":" ++
    pad2 (secs % 60)

/-- `datetime.datetime.utcfromtimestamp(t).strftime("%Y:%m:%d %H:%M:%S")`
as the partial function it is: an epoch outside the C `time_t`
conversion range of a 64-bit platform raises `OverflowError`; one whose
UTC civil year falls outside `datetime`'s supported range 1..9999 raises
`ValueError` (e.g. a millisecond-scale timestamp); otherwise the value
is rendered as a UTC civil time with no timezone offset. -/
def utcDateString (t : Int) : Except PyErr String :=
  if t < -9223372036854775808 ∨ 9223372036854775807 < t then
    Except.error PyErr.overflowError
  else if (civilFromDays (t.fdiv 86400)).1 < 1 ∨
      9999 < (civilFromDays (t.fdiv 86400)).1 then
    Except.error PyErr.valueError
  else Except.ok (formatUtc t)

/-! ## exiftool argument construction (`update_metadata_with_exiftool`) -/

/-- Python truthiness of an optional string (`None` and `""` are falsy). -/
def strTruthy : Option String → Bool
  | some s => s != ""
  | none => false

/-- `metadata.get('photoTakenTime', {}).get('timestamp') or
metadata.get('creationTime', {}).get('timestamp')`, kept only when the
result is truthy (the `if photo_timestamp:` gate). -/
def effectiveTimestamp (m : Metadata) : Option String :=
  let a := m.photoTakenTime.bind TimeVal.timestamp
  let b := m.creationTime.bind TimeVal.timestamp
  if strTruthy a then a else if strTruthy b then b else none

/-- Lines 109-124, the date block: the three date assignments, or
nothing when the timestamp is absent or falsy, when `int()` raises
`ValueError`, or when `utcfromtimestamp` raises `ValueError` for an
out-of-range year — all caught by the block's `except ValueError`.  An
`OverflowError` from `utcfromtimestamp` is not caught and escapes. -/
def dateArgs (m : Metadata) : Except PyErr (List String) :=
  match effectiveTimestamp m with
  | none => Except.ok []
  | some ts =>
    match pyInt ts with
    | none => Except.ok []
    | some n =>
      match utcDateString n with
      | Except.ok ds =>
        Except.ok ["-DateTimeOriginal=" ++ ds,
          "-CreateDate=" ++ ds,
          "-ModifyDate=" ++ ds]
      | Except.error PyErr.valueError => Except.ok []
      | Except.error e => Except.error e

/-- Python truthiness of a geo dict: nonempty. -/
def geoTruthy (g : GeoBag) : Bool :=
  g.latitude.isSome || g.longitude.isSome || g.extraKeys

def emptyGeo : GeoBag := ⟨none, none, false⟩

def geoFallback : Option GeoBag → GeoBag
  | some g => if geoTruthy g then g else emptyGeo
  | none => emptyGeo

/-- `metadata.get('geoData') or metadata.get('geoDataExif') or {}`. -/
def geoPick (m : Metadata) : GeoBag :=
  match m.geoData with
  | some g => if geoTruthy g then g else geoFallback m.geoDataExif
  | none => geoFallback m.geoDataExif

/-- The GPS assignments: written only when both coordinates are present
and at least one exceeds 0.00001 in absolute value; hemisphere reference
letters from the sign. -/
def gpsArgs (m : Metadata) : List String :=
  match (geoPick m).latitude, (geoPick m).longitude with
  | some lat, some lon =>
    if |lat| > 1 / 100000 ∨ |lon| > 1 / 100000 then
      ["-GPSLatitude=" ++ toString lat,
       "-GPSLongitude=" ++ toString lon,
       "-GPSLatitudeRef=" ++ (if 0 ≤ lat then "N" else "S"),
       "-GPSLongitudeRef=" ++ (if 0 ≤ lon then "E" else "W")]
    else []
  | _, _ => []

/-- The optional description assignment (written only when truthy). -/
def descArgs (m : Metadata) : List String :=
  match m.description with
  | some d => if d = "" then [] else ["-ImageDescription=" ++ d]
  | none => []

/-- The full exiftool invocation built by `update_metadata_with_exiftool`
(lines 107-143); building propagates the date block's uncaught
`OverflowError`. -/
def buildExiftoolArgs (m : Metadata) (targetFile : String) :
    Except PyErr (List String) := do
  let dArgs ← dateArgs m
  Except.ok (["exiftool", "-overwrite_original"] ++ dArgs ++ gpsArgs m ++
    descArgs m ++ [targetFile])

/-! ## Environment: external tools, file system, subprocess outcomes -/

/-- One external side effect, recorded in a trace: an external binary
actually executed, or a `shutil.copy2` file copy. -/
inductive Call where
  | magick (src dst : String)
  | ffmpeg (src dst : String)
  | copy2 (src dst : String)
  | exifUpdate (args : List String)
  | exifCopy (src dst : String)
deriving DecidableEq

/-- The ambient world: which binaries resolve, how each invocation
exits (`true` = exit code 0), whether a byte copy succeeds, which files
exist, and what each sidecar file parses to (`Except.error` models an
unreadable file or malformed JSON). -/
structure Env where
  magickFound : Bool
  ffmpegFound : Bool
  exiftoolFound : Bool
  magickOk : String → Bool
  ffmpegOk : String → Bool
  exifUpdateOk : String → Bool
  exifCopyOk : String → String → Bool
  copyOk : String → Bool
  fileExists : String → Bool
  sidecarJson : String → Except String JsonRoot

/-- `convert_heic_to_jpg`: runs `magick convert` with `check=True`.  A
non-zero exit (`CalledProcessError`) is caught and yields `False`; a
missing binary raises `FileNotFoundError`, which the function does not
catch. -/
def convert_heic_to_jpg (env : Env) (heicFile jpgFile : String) :
    Except PyErr (Bool × List Call) :=
  if env.magickFound then
    Except.ok (env.magickOk heicFile, [Call.magick heicFile jpgFile])
  else Except.error PyErr.fileNotFound

/-- `convert_video_to_mp4`: returns `False` immediately when
`shutil.which("ffmpeg")` fails, without invoking anything; otherwise runs
ffmpeg with `check=True`, catching `CalledProcessError` as `False`. -/
def convert_video_to_mp4 (env : Env) (movFile mp4File : String) :
    Bool × List Call :=
  if env.ffmpegFound then
    (env.ffmpegOk movFile, [Call.ffmpeg movFile mp4File])
  else (false, [])

/-- `metadata.get(...)` on the parsed sidecar value: only a dict has
`.get`; any other root raises `AttributeError`. -/
def asDict : JsonRoot → Except PyErr Metadata
  | JsonRoot.obj m => Except.ok m
  | _ => Except.error PyErr.attributeError

/-- `update_metadata_with_exiftool`: builds the argument list (raising
`AttributeError` on a non-dict bag and letting the date block's
`OverflowError` escape), then runs exiftool without `check=True`; a
non-zero exit is only logged, and any exception from the subprocess call
(including a missing binary) is caught and logged.  The returned flag
records whether the tool ran and exited 0. -/
def update_metadata_with_exiftool (env : Env) (targetFile : String)
    (metadata : JsonRoot) : Except PyErr (Bool × List Call) := do
  let m ← asDict metadata
  let args ← buildExiftoolArgs m targetFile
  if env.exiftoolFound then
    Except.ok (env.exifUpdateOk targetFile, [Call.exifUpdate args])
  else
    Except.ok (false, [])

/-- `copy_metadata`: runs exiftool `-TagsFromFile` with `check=True`,
catching only `CalledProcessError` (non-zero exit → `False`); a missing
binary raises `FileNotFoundError` uncaught. -/
def copy_metadata (env : Env) (srcFile dstFile : String) :
    Except PyErr (Bool × List Call) :=
  if env.exiftoolFound then
    Except.ok (env.exifCopyOk srcFile dstFile, [Call.exifCopy srcFile dstFile])
  else Except.error PyErr.fileNotFound

/-- `find_corresponding_json`: first `File.ext.json`, then `File.json`;
first existing candidate wins. -/
def find_corresponding_json (env : Env) (mediaFile : String) : Option String :=
  let jsonCandidate1 := pyWithSuffix mediaFile (pySuffix mediaFile ++ ".json")
  if env.fileExists jsonCandidate1 then some jsonCandidate1
  else
    let jsonCandidate2 := pyWithSuffix mediaFile ".json"
    if env.fileExists jsonCandidate2 then some jsonCandidate2
    else none

/-! ## Per-file processing (`process_file`) -/

/-- `Path.relative_to`: the path relative to `inputDir`, or `none` for
the `ValueError` case (path not under the input root). -/
def relativeTo (filePath inputDir : String) : Option String :=
  if (inputDir ++ "/").data.isPrefixOf filePath.data then
    some ⟨filePath.data.drop (inputDir.data.length + 1)⟩
  else none

def SUPPORTED_MEDIA_EXTENSIONS : List String :=
  [".jpg", ".jpeg", ".png", ".mp4", ".mov", ".heic", ".avi", ".gif"]

inductive ConvKind where
  | heic
  | video
  | plainCopy
deriving DecidableEq

/-- The normalizer's decision: the output path (with a possibly rewritten
suffix) and which converter, if any, handles the lower-cased extension. -/
def normalizePlan (outputFile ext : String) : String × ConvKind :=
  if ext = ".heic" then (pyWithSuffix outputFile ".jpg", ConvKind.heic)
  else if ext = ".mov" ∨ ext = ".avi" then
    (pyWithSuffix outputFile ".mp4", ConvKind.video)
  else (outputFile, ConvKind.plainCopy)

/-- The metadata bag obtained from a sidecar file: the parsed root, with
a nonempty array projected to its first element, and any parse failure
downgraded to an empty dict. -/
def sidecarMeta (env : Env) (sidecarPath : String) : JsonRoot :=
  match env.sidecarJson sidecarPath with
  | Except.ok (JsonRoot.arr (x :: _)) => x
  | Except.ok v => v
  | Except.error _ => JsonRoot.obj emptyMetadata

/-- Lines 235-256 of `process_file`: sidecar lookup and the metadata
step.  With a sidecar, `update_metadata_with_exiftool` runs and the file
succeeds regardless of the tool's exit status; without one, tags are
cloned from the original only if a conversion happened. -/
def metadataPhase (env : Env) (filePath outputFile : String)
    (conversionPerformed : Bool) (calls : List Call) :
    Except PyErr (Bool × List Call) :=
  match find_corresponding_json env filePath with
  | some sidecarPath => do
    let r ← update_metadata_with_exiftool env outputFile
      (sidecarMeta env sidecarPath)
    Except.ok (true, calls ++ r.2)
  | none =>
    if conversionPerformed then do
      let r ← copy_metadata env filePath outputFile
      Except.ok (true, calls ++ r.2)
    else Except.ok (true, calls)

/-- `process_file`: relative-path computation (a failure returns
`False`), conversion or plain copy by extension, then the metadata
phase.  The result is the returned boolean plus the trace of external
side effects; `Except.error` is an exception escaping the function. -/
def process_file (env : Env) (filePath inputDir outputDir : String) :
    Except PyErr (Bool × List Call) :=
  match relativeTo filePath inputDir with
  | none => Except.ok (false, [])
  | some relPath =>
    let plan := normalizePlan (outputDir ++ "/" ++ relPath)
      (pyLower (pySuffix filePath))
    match plan.2 with
    | ConvKind.heic => do
      let r ← convert_heic_to_jpg env filePath plan.1
      if r.1 then metadataPhase env filePath plan.1 true r.2
      else Except.ok (false, r.2)
    | ConvKind.video =>
      let r := convert_video_to_mp4 env filePath plan.1
      if r.1 then metadataPhase env filePath plan.1 true r.2
      else Except.ok (false, r.2)
    | ConvKind.plainCopy =>
      if env.copyOk filePath then
        metadataPhase env filePath plan.1 false [Call.copy2 filePath plan.1]
      else Except.ok (false, [])

/-! ## Directory walk and report (`process_directory`) -/

structure Report where
  total : Nat
  processed : Nat
  failed : List String
  extMap : List (String × Nat)
deriving DecidableEq

def initReport : Report := ⟨0, 0, [], []⟩

/-- `defaultdict(int)` increment, as an association list. -/
def bump (l : List (String × Nat)) (k : String) : List (String × Nat) :=
  match l with
  | [] => [(k, 1)]
  | (k0, n) :: rest =>
    if k0 = k then (k0, n + 1) :: rest else (k0, n) :: bump rest k

/-- One iteration of the walk: skip unsupported extensions entirely;
otherwise count the file and record success (tallying its extension) or
failure.  Exceptions from `process_file` propagate. -/
def stepFile (env : Env) (inputDir outputDir : String)
    (st : Report × List Call) (filePath : String) :
    Except PyErr (Report × List Call) :=
  if pyLower (pySuffix filePath) ∈ SUPPORTED_MEDIA_EXTENSIONS then do
    let r ← process_file env filePath inputDir outputDir
    if r.1 then
      Except.ok ({ st.1 with
          total := st.1.total + 1,
          processed := st.1.processed + 1,
          extMap := bump st.1.extMap (pyLower (pySuffix filePath)) },
        st.2 ++ r.2)
    else
      Except.ok ({ st.1 with
          total := st.1.total + 1,
          failed := st.1.failed ++ [filePath] },
        st.2 ++ r.2)
  else Except.ok st

/-- `process_directory` over the walk's file sequence.  An uncaught
exception from any file aborts the whole walk (no report). -/
def process_directory (env : Env) (inputDir outputDir : String)
    (files : List String) : Except PyErr (Report × List Call) :=
  files.foldlM (stepFile env inputDir outputDir) (initReport, [])

/-- The number printed as `Failed` in the final report. -/
def reportedFailedCount (r : Report) : Nat := r.total - r.processed

/-- Total of all per-extension tallies in the report. -/
def extMapSum (l : List (String × Nat)) : Nat := (l.map Prod.snd).sum

/-! ## Concrete environments used to instantiate the theorems -/

/-- A world where every binary resolves, every invocation succeeds, no
file exists and no sidecar parses. -/
def baseEnv : Env where
  magickFound := true
  ffmpegFound := true
  exiftoolFound := true
  magickOk := fun _ => true
  ffmpegOk := fun _ => true
  exifUpdateOk := fun _ => true
  exifCopyOk := fun _ _ => true
  copyOk := fun _ => true
  fileExists := fun _ => false
  sidecarJson := fun _ => Except.error "no such file"

/-- exiftool exits non-zero on every sidecar-apply invocation; a sidecar
exists for `in/a.jpg` and parses to an empty object. -/
def envExifFail : Env := { baseEnv with
  exifUpdateOk := fun _ => false
  fileExists := fun s => s == "in/a.jpg.json"
  sidecarJson := fun _ => Except.ok (JsonRoot.obj emptyMetadata) }

/-- exiftool exits non-zero on every tag-clone invocation; no sidecars. -/
def envCopyMetaFail : Env := { baseEnv with
  exifCopyOk := fun _ _ => false }

/-- The ImageMagick binary is missing from the execution path. -/
def envNoMagick : Env := { baseEnv with magickFound := false }

/-- ImageMagick runs but exits non-zero on every conversion. -/
def envMagickFails : Env := { baseEnv with magickOk := fun _ => false }

/-- ffmpeg runs but exits non-zero on every conversion. -/
def envFfmpegFails : Env := { baseEnv with ffmpegOk := fun _ => false }

/-- ffmpeg is missing from the execution path. -/
def envNoFfmpeg : Env := { baseEnv with ffmpegFound := false }

/-- A sidecar exists for `in/a.jpg` but holds malformed JSON. -/
def envBadJson : Env := { baseEnv with
  fileExists := fun s => s == "in/a.jpg.json"
  sidecarJson := fun _ => Except.error "invalid JSON" }

/-- A sidecar exists for `in/a.jpg` and parses to the scalar `5`. -/
def envScalarSidecar : Env := { baseEnv with
  fileExists := fun s => s == "in/a.jpg.json"
  sidecarJson := fun _ => Except.ok (JsonRoot.num 5) }

/-- Sidecar roots on which `metadata.get` raises `AttributeError`: every
parsed value that is neither an object nor a nonempty array whose first
element is an object. -/
def badRoot : JsonRoot → Bool
  | JsonRoot.obj _ => false
  | JsonRoot.arr (JsonRoot.obj _ :: _) => false
  | _ => true

/-- Internal consistency of a final report: the total equals successes
plus failures, the printed `Failed` number is the failed-list length, and
the extension tallies sum to the success count. -/
def reportInvariant (r : Report) : Prop :=
  r.total = r.processed + r.failed.length ∧
  reportedFailedCount r = r.failed.length ∧
  extMapSum r.extMap = r.processed

/-! ## Claim theorems -/

/-- C1: the format normalizer's output suffix is determined by the
lower-cased input extension: `.heic` yields a `.jpg` output suffix,
`.mov`/`.avi` yield `.mp4`, and the remaining supported extensions keep
the output path (hence its suffix) unchanged. -/
theorem c1_normalizer_output_suffix (outputFile ext : String)
    (h : pathName outputFile ≠ "") :
    (ext = ".heic" → pySuffix (normalizePlan outputFile ext).1 = ".jpg") ∧
    ((ext = ".mov" ∨ ext = ".avi") →
      pySuffix (normalizePlan outputFile ext).1 = ".mp4") ∧
    (ext ∈ [".jpg", ".jpeg", ".png", ".mp4", ".gif"] →
      (normalizePlan outputFile ext).1 = outputFile) := by
  have hn : nameRev outputFile ≠ [] := (pathName_ne_iff outputFile).mp h
  refine ⟨?_, ?_, ?_⟩
  · intro he
    subst he
    have h4 : (normalizePlan outputFile ".heic").1 =
        pyWithSuffix outputFile ".jpg" := by
      unfold normalizePlan
      rw [if_pos rfl]
    rw [h4]
    have hds := pySuffix_pyWithSuffix outputFile ['j', 'p', 'g'] hn
      (by decide) (by decide) (by decide)
    have hlit : (⟨'.' :: ['j', 'p', 'g']⟩ : String) = ".jpg" := by decide
    rw [hlit] at hds
    exact hds
  · intro he
    have h4 : (normalizePlan outputFile ext).1 =
        pyWithSuffix outputFile ".mp4" := by
      unfold normalizePlan
      rcases he with he | he <;> subst he <;>
        rw [if_neg (by decide), if_pos (by simp)]
    rw [h4]
    have hds := pySuffix_pyWithSuffix outputFile ['m', 'p', '4'] hn
      (by decide) (by decide) (by decide)
    have hlit : (⟨'.' :: ['m', 'p', '4']⟩ : String) = ".mp4" := by decide
    rw [hlit] at hds
    exact hds
  · intro hmem
    fin_cases hmem <;>
      · unfold normalizePlan
        rw [if_neg (by decide), if_neg (by decide)]

/-- C1 witness on concrete inputs. -/
theorem c1_witness :
    pySuffix (normalizePlan "out/photo.heic" ".heic").1 = ".jpg" ∧
    pySuffix (normalizePlan "out/clip.mov" ".mov").1 = ".mp4" ∧
    pySuffix (normalizePlan "out/clip2.avi" ".avi").1 = ".mp4" ∧
    (normalizePlan "out/pic.png" ".png").1 = "out/pic.png" :=
  ⟨(c1_normalizer_output_suffix "out/photo.heic" ".heic" (by decide)).1 rfl,
   (c1_normalizer_output_suffix "out/clip.mov" ".mov" (by decide)).2.1
     (Or.inl rfl),
   (c1_normalizer_output_suffix "out/clip2.avi" ".avi" (by decide)).2.1
     (Or.inr rfl),
   (c1_normalizer_output_suffix "out/pic.png" ".png" (by decide)).2.2
     (by decide)⟩

/-- C2: sidecar resolution tries the path with `.json` appended after the
existing suffix first, then the path with the suffix replaced by `.json`;
the first existing candidate wins and no candidate yields `none`.  In
particular when both exist the appended form is chosen. -/
theorem c2_sidecar_resolution (env : Env) (p : String)
    (_h : pathName p ≠ "") :
    find_corresponding_json env p =
      if env.fileExists (p ++ ".json") = true then some (p ++ ".json")
      else if env.fileExists (pyWithSuffix p ".json") = true then
        some (pyWithSuffix p ".json")
      else none := by
  unfold find_corresponding_json
  rw [pyWithSuffix_suffix_append_json p]

/-- C2 witness: with both `d/a.jpg.json` and `d/a.json` present, the
appended form is chosen. -/
theorem c2_witness :
    find_corresponding_json
      { baseEnv with
        fileExists := fun s => s == "d/a.jpg.json" || s == "d/a.json" }
      "d/a.jpg" = some "d/a.jpg.json" := by
  rw [c2_sidecar_resolution _ "d/a.jpg" (by decide)]
  decide

theorem buildExiftoolArgs_ok {m : Metadata} {targetFile : String}
    {dArgs : List String} (hda : dateArgs m = Except.ok dArgs) :
    buildExiftoolArgs m targetFile = Except.ok
      (["exiftool", "-overwrite_original"] ++ dArgs ++ gpsArgs m ++
        descArgs m ++ [targetFile]) := by
  unfold buildExiftoolArgs
  rw [hda]
  rfl

theorem update_eq_of_buildOk {env : Env} {targetFile : String}
    {m : Metadata} {args : List String}
    (hq : buildExiftoolArgs m targetFile = Except.ok args) :
    update_metadata_with_exiftool env targetFile (JsonRoot.obj m) =
      if env.exiftoolFound then
        Except.ok (env.exifUpdateOk targetFile, [Call.exifUpdate args])
      else Except.ok (false, []) := by
  show (buildExiftoolArgs m targetFile >>= fun args =>
      if env.exiftoolFound then
        Except.ok (env.exifUpdateOk targetFile, [Call.exifUpdate args])
      else Except.ok (false, [])) = _
  rw [hq]
  rfl

/-- C4: GPS fields are written iff the chosen coordinate bag (`geoData`,
falling back to `geoDataExif`) has both coordinates present with at least
one exceeding 0.00001 in absolute value; the hemisphere references are
N/S by sign of latitude and E/W by sign of longitude. -/
theorem c4_gps_condition (m : Metadata) :
    (gpsArgs m ≠ [] ↔
      ∃ lat lon : ℚ, (geoPick m).latitude = some lat ∧
        (geoPick m).longitude = some lon ∧
        (|lat| > 1 / 100000 ∨ |lon| > 1 / 100000)) ∧
    (∀ lat lon : ℚ, (geoPick m).latitude = some lat →
      (geoPick m).longitude = some lon →
      (|lat| > 1 / 100000 ∨ |lon| > 1 / 100000) →
      gpsArgs m =
        ["-GPSLatitude=" ++ toString lat,
         "-GPSLongitude=" ++ toString lon,
         "-GPSLatitudeRef=" ++ (if 0 ≤ lat then "N" else "S"),
         "-GPSLongitudeRef=" ++ (if 0 ≤ lon then "E" else "W")]) := by
  constructor
  · constructor
    · intro hne
      rcases hlat : (geoPick m).latitude with _ | lat
      · simp [gpsArgs, hlat] at hne
      · rcases hlon : (geoPick m).longitude with _ | lon
        · simp [gpsArgs, hlat, hlon] at hne
        · refine ⟨lat, lon, rfl, rfl, ?_⟩
          by_contra hc
          push_neg at hc
          obtain ⟨hc1, hc2⟩ := hc
          simp [gpsArgs, hlat, hlon] at hne
          rw [one_div] at hc1 hc2
          exact absurd (hne hc1) (not_lt.2 hc2)
    · rintro ⟨lat, lon, hlat, hlon, hc⟩
      simp only [gpsArgs, hlat, hlon]
      rw [if_pos hc]
      simp
  · intro lat lon hlat hlon hc
    simp only [gpsArgs, hlat, hlon]
    rw [if_pos hc]

/-- C4 witness: latitude 37, longitude -122 yields N/W references; a
present null-island pair produces no GPS fields. -/
theorem c4_witness :
    gpsArgs ⟨none, none, some ⟨some 37, some (-122), false⟩, none, none⟩ =
      ["-GPSLatitude=37", "-GPSLongitude=-122",
       "-GPSLatitudeRef=N", "-GPSLongitudeRef=W"] ∧
    gpsArgs ⟨none, none, some ⟨some 0, some 0, false⟩, none, none⟩ = [] := by
  constructor
  · have h := (c4_gps_condition
      ⟨none, none, some ⟨some 37, some (-122), false⟩, none, none⟩).2
      37 (-122) rfl rfl (by norm_num)
    rw [h]
    decide
  · have hlat : (geoPick ⟨none, none, some ⟨some 0, some 0, false⟩, none,
        none⟩).latitude = some 0 := rfl
    have hlon : (geoPick ⟨none, none, some ⟨some 0, some 0, false⟩, none,
        none⟩).longitude = some 0 := rfl
    simp only [gpsArgs, hlat, hlon]
    rw [if_neg]
    rw [abs_zero]
    norm_num

/-- C5 counterexample: the metadata tool exits non-zero on the
sidecar-apply invocation for `in/a.jpg`, yet the final report counts the
file as successfully processed and its failed list is empty — the file
is not marked failed. -/
theorem c5_counterexample :
    envExifFail.exifUpdateOk "out/a.jpg" = false ∧
    process_directory envExifFail "in" "out" ["in/a.jpg"] =
      Except.ok (⟨1, 1, [], [(".jpg", 1)]⟩,
        [Call.copy2 "in/a.jpg" "out/a.jpg",
         Call.exifUpdate ["exiftool", "-overwrite_original", "out/a.jpg"]]) :=
  ⟨rfl, rfl⟩

/-- C5 (amended): when the metadata tool exits non-zero — in either the
sidecar-apply contract or the tag-clone contract — the failure is only
logged: `process_file` still returns success, so the file is counted as
processed rather than marked failed, and the walk continues. -/
theorem c5_amended_metadata_failure_not_recorded
    (env : Env) (filePath inputDir outputDir rel : String)
    (hrel : relativeTo filePath inputDir = some rel) :
    (pyLower (pySuffix filePath) ∉ [".heic", ".mov", ".avi"] →
      env.copyOk filePath = true →
      ∀ j mv dArgs, find_corresponding_json env filePath = some j →
      sidecarMeta env j = JsonRoot.obj mv →
      dateArgs mv = Except.ok dArgs →
      env.exifUpdateOk (outputDir ++ "/" ++ rel) = false →
      ∃ calls, process_file env filePath inputDir outputDir =
        Except.ok (true, calls)) ∧
    (pyLower (pySuffix filePath) = ".heic" →
      env.magickFound = true → env.magickOk filePath = true →
      find_corresponding_json env filePath = none →
      env.exiftoolFound = true →
      env.exifCopyOk filePath
        (pyWithSuffix (outputDir ++ "/" ++ rel) ".jpg") = false →
      ∃ calls, process_file env filePath inputDir outputDir =
        Except.ok (true, calls)) := by
  constructor
  · intro hext hcopy j mv dArgs hj hmv hdA _hfail
    have h1 : pyLower (pySuffix filePath) ≠ ".heic" :=
      fun hq => hext (by simp [hq])
    have h2 : ¬(pyLower (pySuffix filePath) = ".mov" ∨
        pyLower (pySuffix filePath) = ".avi") := by
      rintro (hq | hq) <;> exact hext (by simp [hq])
    simp only [process_file, hrel, normalizePlan, if_neg h1, if_neg h2,
      hcopy, if_true, metadataPhase, hj, hmv]
    rw [update_eq_of_buildOk (buildExiftoolArgs_ok hdA)]
    cases hef : env.exiftoolFound <;> exact ⟨_, rfl⟩
  · intro hq hmf hmok hnone hexif _hfail
    simp only [process_file, hrel, normalizePlan, if_pos hq,
      convert_heic_to_jpg, hmf, if_true, hmok, metadataPhase, hnone,
      copy_metadata, hexif]
    exact ⟨_, rfl⟩

/-- C5 witness: both failing-metadata scenarios at concrete inputs. -/
theorem c5_witness :
    (∃ calls, process_file envExifFail "in/a.jpg" "in" "out" =
      Except.ok (true, calls)) ∧
    (∃ calls, process_file envCopyMetaFail "in/a.heic" "in" "out" =
      Except.ok (true, calls)) :=
  ⟨(c5_amended_metadata_failure_not_recorded envExifFail "in/a.jpg" "in"
      "out" "a.jpg" rfl).1 (by decide) rfl "in/a.jpg.json"
      emptyMetadata [] rfl rfl rfl rfl,
   (c5_amended_metadata_failure_not_recorded envCopyMetaFail "in/a.heic"
      "in" "out" "a.heic" rfl).2 (by decide) rfl rfl rfl rfl rfl⟩

/-- C6 counterexample: with the image-converter binary missing from the
execution path, processing a `.heic` file does not yield a per-file
failure that the walk survives — the uncaught `FileNotFoundError` aborts
the whole walk. -/
theorem c6_counterexample :
    process_directory envNoMagick "in" "out" ["in/a.heic"] =
      Except.error PyErr.fileNotFound :=
  rfl

/-- C6 (amended): a converter non-zero exit is a per-file failure with no
metadata application attempted; a missing ffmpeg binary fails the file
fast without invoking the tool; but a missing image-converter binary
raises an uncaught error that escapes `process_file`. -/
theorem c6_amended_converter_failures
    (env : Env) (filePath inputDir outputDir rel : String)
    (hrel : relativeTo filePath inputDir = some rel) :
    (pyLower (pySuffix filePath) = ".heic" → env.magickFound = true →
      env.magickOk filePath = false →
      process_file env filePath inputDir outputDir =
        Except.ok (false,
          [Call.magick filePath
            (pyWithSuffix (outputDir ++ "/" ++ rel) ".jpg")])) ∧
    (pyLower (pySuffix filePath) ∈ [".mov", ".avi"] →
      env.ffmpegFound = true → env.ffmpegOk filePath = false →
      process_file env filePath inputDir outputDir =
        Except.ok (false,
          [Call.ffmpeg filePath
            (pyWithSuffix (outputDir ++ "/" ++ rel) ".mp4")])) ∧
    (pyLower (pySuffix filePath) ∈ [".mov", ".avi"] →
      env.ffmpegFound = false →
      process_file env filePath inputDir outputDir =
        Except.ok (false, [])) ∧
    (pyLower (pySuffix filePath) = ".heic" → env.magickFound = false →
      process_file env filePath inputDir outputDir =
        Except.error PyErr.fileNotFound) := by
  have hmovavi : pyLower (pySuffix filePath) ∈ [".mov", ".avi"] →
      pyLower (pySuffix filePath) ≠ ".heic" ∧
        (pyLower (pySuffix filePath) = ".mov" ∨
         pyLower (pySuffix filePath) = ".avi") := by
    intro hm
    rcases List.mem_cons.mp hm with hq | hq
    · exact ⟨by rw [hq]; decide, Or.inl hq⟩
    · rcases List.mem_cons.mp hq with hq2 | hq2
      · exact ⟨by rw [hq2]; decide, Or.inr hq2⟩
      · exact absurd hq2 (List.not_mem_nil _)
  refine ⟨?_, ?_, ?_, ?_⟩
  · intro hq hmf hbad
    simp only [process_file, hrel, normalizePlan, if_pos hq,
      convert_heic_to_jpg, hmf, if_true, hbad]
    rfl
  · intro hm hff hbad
    obtain ⟨hne, hor⟩ := hmovavi hm
    simp only [process_file, hrel, normalizePlan, if_neg hne, if_pos hor,
      convert_video_to_mp4, hff, if_true, hbad]
    rfl
  · intro hm hff
    obtain ⟨hne, hor⟩ := hmovavi hm
    simp only [process_file, hrel, normalizePlan, if_neg hne, if_pos hor,
      convert_video_to_mp4, hff]
    rfl
  · intro hq hmf
    simp only [process_file, hrel, normalizePlan, if_pos hq,
      convert_heic_to_jpg, hmf]
    rfl

/-- C6 witness: the four converter-failure scenarios at concrete
inputs. -/
theorem c6_witness :
    process_file envMagickFails "in/a.heic" "in" "out" =
      Except.ok (false, [Call.magick "in/a.heic" "out/a.jpg"]) ∧
    process_file envFfmpegFails "in/b.mov" "in" "out" =
      Except.ok (false, [Call.ffmpeg "in/b.mov" "out/b.mp4"]) ∧
    process_file envNoFfmpeg "in/b.avi" "in" "out" =
      Except.ok (false, []) ∧
    process_file envNoMagick "in/a.heic" "in" "out" =
      Except.error PyErr.fileNotFound :=
  ⟨((c6_amended_converter_failures envMagickFails "in/a.heic" "in" "out"
      "a.heic" rfl).1 rfl rfl rfl).trans rfl,
   ((c6_amended_converter_failures envFfmpegFails "in/b.mov" "in" "out"
      "b.mov" rfl).2.1 (by decide) rfl rfl).trans rfl,
   ((c6_amended_converter_failures envNoFfmpeg "in/b.avi" "in" "out"
      "b.avi" rfl).2.2.1 (by decide) rfl).trans rfl,
   ((c6_amended_converter_failures envNoMagick "in/a.heic" "in" "out"
      "a.heic" rfl).2.2.2 rfl rfl).trans rfl⟩

/-- C7: a sidecar whose JSON fails to parse is logged and downgraded to
an empty metadata bag; the file still reaches the metadata-application
step (the tool is invoked with the empty bag's arguments) and ends in
success rather than being marked failed. -/
theorem c7_malformed_sidecar_continues
    (env : Env) (filePath inputDir outputDir rel j e : String)
    (hrel : relativeTo filePath inputDir = some rel)
    (hext : pyLower (pySuffix filePath) ∉ [".heic", ".mov", ".avi"])
    (hcopy : env.copyOk filePath = true)
    (hj : find_corresponding_json env filePath = some j)
    (hbad : env.sidecarJson j = Except.error e)
    (hexif : env.exiftoolFound = true) :
    process_file env filePath inputDir outputDir =
      Except.ok (true,
        [Call.copy2 filePath (outputDir ++ "/" ++ rel),
         Call.exifUpdate
           ["exiftool", "-overwrite_original", outputDir ++ "/" ++ rel]]) := by
  have h1 : pyLower (pySuffix filePath) ≠ ".heic" :=
    fun hq => hext (by simp [hq])
  have h2 : ¬(pyLower (pySuffix filePath) = ".mov" ∨
      pyLower (pySuffix filePath) = ".avi") := by
    rintro (hq | hq) <;> exact hext (by simp [hq])
  have hmeta : sidecarMeta env j = JsonRoot.obj emptyMetadata := by
    unfold sidecarMeta
    rw [hbad]
  simp only [process_file, hrel, normalizePlan, if_neg h1, if_neg h2,
    hcopy, if_true, metadataPhase, hj, update_metadata_with_exiftool,
    hmeta, asDict, hexif]
  rfl

/-- C7 witness: a malformed sidecar for `in/a.jpg` still yields success
and an exiftool invocation carrying only the base arguments. -/
theorem c7_witness :
    process_file envBadJson "in/a.jpg" "in" "out" =
      Except.ok (true,
        [Call.copy2 "in/a.jpg" "out/a.jpg",
         Call.exifUpdate ["exiftool", "-overwrite_original", "out/a.jpg"]]) :=
  (c7_malformed_sidecar_continues envBadJson "in/a.jpg" "in" "out" "a.jpg"
    "in/a.jpg.json" "invalid JSON" rfl (by decide) rfl rfl rfl rfl).trans
    rfl

/-- C8: a file whose lower-cased extension is unsupported is ignored
entirely: deleting it from the walk sequence changes nothing — neither
the report (total, per-extension counts, failed list) nor the trace of
side effects (so no output file is produced for it). -/
theorem c8_unsupported_ignored (env : Env) (inputDir outputDir : String)
    (filePath : String)
    (h : pyLower (pySuffix filePath) ∉ SUPPORTED_MEDIA_EXTENSIONS)
    (pre post : List String) :
    process_directory env inputDir outputDir (pre ++ filePath :: post) =
      process_directory env inputDir outputDir (pre ++ post) := by
  unfold process_directory
  rw [List.foldlM_append, List.foldlM_append]
  refine bind_congr fun st => ?_
  rw [List.foldlM_cons]
  have hstep : stepFile env inputDir outputDir st filePath =
      Except.ok st := by
    unfold stepFile
    rw [if_neg h]
  rw [hstep]
  rfl

/-- C8 witness: a lone `.txt` file yields the empty report and no side
effects. -/
theorem c8_witness :
    process_directory baseEnv "in" "out" ["in/notes.txt"] =
      Except.ok (initReport, []) := by
  have h := c8_unsupported_ignored baseEnv "in" "out" "in/notes.txt"
    (by decide) [] []
  simp only [List.nil_append] at h
  rw [h]
  rfl

/-- A parsed sidecar root flagged by `badRoot` makes the applier's first
key lookup raise `AttributeError`. -/
theorem sidecarMeta_bad {env : Env} {j : String} {v : JsonRoot}
    (hv : env.sidecarJson j = Except.ok v) (hbad : badRoot v = true) :
    asDict (sidecarMeta env j) = Except.error PyErr.attributeError := by
  unfold sidecarMeta
  rw [hv]
  cases v with
  | obj m => exact absurd hbad (by simp [badRoot])
  | arr elems =>
    cases elems with
    | nil => rfl
    | cons x xs =>
      cases x with
      | obj m => exact absurd hbad (by simp [badRoot])
      | arr ys => rfl
      | str s => rfl
      | num q => rfl
      | boolean b => rfl
      | null => rfl
  | str s => rfl
  | num q => rfl
  | boolean b => rfl
  | null => rfl

/-- C9: a sidecar that parses to a value that is neither an object nor a
nonempty array headed by an object makes `process_file` raise an uncaught
`AttributeError`, and the exception aborts the entire walk instead of
marking only that file as failed. -/
theorem c9_bad_sidecar_aborts_walk
    (env : Env) (filePath inputDir outputDir rel j : String) (v : JsonRoot)
    (hrel : relativeTo filePath inputDir = some rel)
    (hsupp : pyLower (pySuffix filePath) ∈ SUPPORTED_MEDIA_EXTENSIONS)
    (hext : pyLower (pySuffix filePath) ∉ [".heic", ".mov", ".avi"])
    (hcopy : env.copyOk filePath = true)
    (hj : find_corresponding_json env filePath = some j)
    (hv : env.sidecarJson j = Except.ok v)
    (hbad : badRoot v = true) :
    process_file env filePath inputDir outputDir =
      Except.error PyErr.attributeError ∧
    ∀ pre post st,
      process_directory env inputDir outputDir pre = Except.ok st →
      process_directory env inputDir outputDir (pre ++ filePath :: post) =
        Except.error PyErr.attributeError := by
  have h1 : pyLower (pySuffix filePath) ≠ ".heic" :=
    fun hq => hext (by simp [hq])
  have h2 : ¬(pyLower (pySuffix filePath) = ".mov" ∨
      pyLower (pySuffix filePath) = ".avi") := by
    rintro (hq | hq) <;> exact hext (by simp [hq])
  have hbadDict := sidecarMeta_bad hv hbad
  have hpf : process_file env filePath inputDir outputDir =
      Except.error PyErr.attributeError := by
    simp only [process_file, hrel, normalizePlan, if_neg h1, if_neg h2,
      hcopy, if_true, metadataPhase, hj, update_metadata_with_exiftool,
      hbadDict]
    rfl
  refine ⟨hpf, ?_⟩
  intro pre post st hpre
  have key : (filePath :: post).foldlM (stepFile env inputDir outputDir)
      st = Except.error PyErr.attributeError := by
    rw [List.foldlM_cons]
    have hstep : stepFile env inputDir outputDir st filePath =
        Except.error PyErr.attributeError := by
      unfold stepFile
      rw [if_pos hsupp, hpf]
      rfl
    rw [hstep]
    rfl
  unfold process_directory at hpre ⊢
  rw [List.foldlM_append, hpre]
  exact key

/-- C9 witness: a sidecar parsing to the scalar `5` aborts both the file
and the walk with `AttributeError`. -/
theorem c9_witness :
    process_file envScalarSidecar "in/a.jpg" "in" "out" =
      Except.error PyErr.attributeError ∧
    process_directory envScalarSidecar "in" "out" ["in/a.jpg"] =
      Except.error PyErr.attributeError := by
  have h := c9_bad_sidecar_aborts_walk envScalarSidecar "in/a.jpg" "in"
    "out" "a.jpg" "in/a.jpg.json" (JsonRoot.num 5) rfl (by decide)
    (by decide) rfl rfl rfl rfl
  refine ⟨h.1, ?_⟩
  have h2 := h.2 [] [] (initReport, []) rfl
  simpa using h2

/-- Incrementing a tally raises the tally sum by exactly one. -/
theorem extMapSum_bump (l : List (String × Nat)) (k : String) :
    extMapSum (bump l k) = extMapSum l + 1 := by
  induction l with
  | nil => rfl
  | cons a rest ih =>
    obtain ⟨k0, n⟩ := a
    by_cases hk : k0 = k
    · simp only [bump, if_pos hk, extMapSum, List.map_cons, List.sum_cons]
      omega
    · simp only [bump, if_neg hk, extMapSum, List.map_cons,
        List.sum_cons] at ih ⊢
      omega

/-- One walk step preserves report consistency. -/
theorem stepFile_inv {env : Env} {inputDir outputDir : String}
    {st st' : Report × List Call} {filePath : String}
    (h : stepFile env inputDir outputDir st filePath = Except.ok st')
    (hinv : reportInvariant st.1) : reportInvariant st'.1 := by
  by_cases hs : pyLower (pySuffix filePath) ∈ SUPPORTED_MEDIA_EXTENSIONS
  · rcases hp : process_file env filePath inputDir outputDir with e | r
    · have hst : stepFile env inputDir outputDir st filePath =
          Except.error e := by
        unfold stepFile
        rw [if_pos hs, hp]
        rfl
      rw [hst] at h
      exact Except.noConfusion h
    · obtain ⟨flag, calls⟩ := r
      obtain ⟨i1, i2, i3⟩ := hinv
      cases flag
      · have hst : stepFile env inputDir outputDir st filePath =
            Except.ok (⟨st.1.total + 1, st.1.processed,
              st.1.failed ++ [filePath], st.1.extMap⟩, st.2 ++ calls) := by
          unfold stepFile
          rw [if_pos hs, hp]
          rfl
        rw [hst] at h
        injection h with h'
        rw [← h']
        unfold reportedFailedCount at i2
        unfold reportInvariant reportedFailedCount
        dsimp only
        simp only [List.length_append, List.length_cons, List.length_nil]
        refine ⟨by omega, by omega, i3⟩
      · have hst : stepFile env inputDir outputDir st filePath =
            Except.ok (⟨st.1.total + 1, st.1.processed + 1, st.1.failed,
              bump st.1.extMap (pyLower (pySuffix filePath))⟩,
              st.2 ++ calls) := by
          unfold stepFile
          rw [if_pos hs, hp]
          rfl
        rw [hst] at h
        injection h with h'
        rw [← h']
        unfold reportedFailedCount at i2
        unfold reportInvariant reportedFailedCount
        dsimp only
        refine ⟨by omega, by omega, ?_⟩
        rw [extMapSum_bump, i3]
  · have hst : stepFile env inputDir outputDir st filePath =
        Except.ok st := by
      unfold stepFile
      rw [if_neg hs]
    rw [hst] at h
    injection h with h'
    rw [← h']
    exact hinv

/-- C10: a completed walk's report is internally consistent: the total
equals successes plus the failed-list length, the printed `Failed`
number equals the failed-list length, and the per-extension tallies sum
to the success count. -/
theorem c10_report_consistency (env : Env) (inputDir outputDir : String)
    (files : List String) (r : Report) (tr : List Call)
    (h : process_directory env inputDir outputDir files =
      Except.ok (r, tr)) :
    r.total = r.processed + r.failed.length ∧
    reportedFailedCount r = r.failed.length ∧
    extMapSum r.extMap = r.processed := by
  suffices haux : ∀ (fs : List String) (st res : Report × List Call),
      reportInvariant st.1 →
      fs.foldlM (stepFile env inputDir outputDir) st = Except.ok res →
      reportInvariant res.1 by
    exact haux files (initReport, []) (r, tr) ⟨rfl, rfl, rfl⟩ h
  intro fs
  induction fs with
  | nil =>
    intro st res hinv hfold
    have h2 : (Except.ok st : Except PyErr (Report × List Call)) =
        Except.ok res := hfold
    rw [← Except.ok.inj h2]
    exact hinv
  | cons f rest ih =>
    intro st res hinv hfold
    rw [List.foldlM_cons] at hfold
    rcases hsf : stepFile env inputDir outputDir st f with e | st'
    · rw [hsf] at hfold
      exact Except.noConfusion hfold
    · rw [hsf] at hfold
      exact ih st' res (stepFile_inv hsf hinv) hfold

/-- C10 witness: a concrete mixed run (one success, one skipped
unsupported file, one conversion failure) with a consistent report. -/
theorem c10_witness :
    ∃ r tr, process_directory envMagickFails "in" "out"
        ["in/a.png", "in/b.txt", "in/c.heic"] = Except.ok (r, tr) ∧
      r.total = r.processed + r.failed.length ∧
      reportedFailedCount r = r.failed.length ∧
      extMapSum r.extMap = r.processed := by
  have hrun : process_directory envMagickFails "in" "out"
      ["in/a.png", "in/b.txt", "in/c.heic"] =
      Except.ok (⟨2, 1, ["in/c.heic"], [(".png", 1)]⟩,
        [Call.copy2 "in/a.png" "out/a.png",
         Call.magick "in/c.heic" "out/c.jpg"]) := rfl
  exact ⟨_, _, hrun, c10_report_consistency _ _ _ _ _ _ hrun⟩

end MergedScript
